import Mathlib

/-!
Verification development for the SecureVault password manager.

The repository's core (CryptoManager, signup/login/import in the app
context, SecurityAnalyzer) is embedded shallowly:

* byte strings (`Uint8Array`, binary strings fed to `btoa`/`atob`) become
  `List Nat` with every element `< 256`;
* JavaScript strings become Lean `String` (or `List Char` of their code
  points) — the UTF-16 subtleties play no role in any claim;
* the external WebCrypto primitives (`crypto.subtle.deriveKey`,
  `crypto.subtle.encrypt/decrypt`, `crypto.subtle.digest`) and the
  network are parameters of the embedded functions, and the randomness
  that `crypto.getRandomValues` draws (salt, nonce) is passed in
  explicitly, so that every theorem quantifies over it;
* `try { ... } catch { ... }` around fallible externals becomes
  `Option`-valued plumbing: `none` models the uniform error thrown by
  the catch block;
* JavaScript `number` arithmetic in the analyzer is modelled exactly
  over `ℚ` (the spec and the claims state the same real-valued formula
  on both sides, so the float/real gap is shared and irrelevant).
-/

/-! ## Base64 (`btoa` / `atob`)

`CryptoManager.encrypt` returns `btoa(String.fromCharCode(...combined))`
and `decrypt` starts from `atob(...)`.  Standard base64 with padding,
over char codes. -/

/-- Char code of the base64 alphabet at sextet index `i` (`A-Za-z0-9+/`). -/
def base64Alphabet (i : Nat) : Nat :=
  if i < 26 then 65 + i
  else if i < 52 then 97 + (i - 26)
  else if i < 62 then 48 + (i - 52)
  else if i = 62 then 43
  else 47

/-- Inverse of the base64 alphabet: sextet index of char code `c`, if any. -/
def base64DecodeChar (c : Nat) : Option Nat :=
  if 65 ≤ c ∧ c ≤ 90 then some (c - 65)
  else if 97 ≤ c ∧ c ≤ 122 then some (26 + (c - 97))
  else if 48 ≤ c ∧ c ≤ 57 then some (52 + (c - 48))
  else if c = 43 then some 62
  else if c = 47 then some 63
  else none

/-- `btoa` on a binary string (a list of byte values): standard padded
base64, producing the char codes of the base64 string. -/
def base64Encode : List Nat → List Nat
  | [] => []
  | [a] =>
    [base64Alphabet (a / 4), base64Alphabet (a % 4 * 16), 61, 61]
  | [a, b] =>
    [base64Alphabet (a / 4), base64Alphabet (a % 4 * 16 + b / 16),
     base64Alphabet (b % 16 * 4), 61]
  | a :: b :: c :: rest =>
    base64Alphabet (a / 4) :: base64Alphabet (a % 4 * 16 + b / 16) ::
    base64Alphabet (b % 16 * 4 + c / 64) :: base64Alphabet (c % 64) ::
    base64Encode rest

/-- `atob`: decode a padded base64 string (given as char codes) back to
bytes; `none` models the `InvalidCharacterError` that `atob` throws
(`61` is the char code of the padding character). -/
def base64Decode : List Nat → Option (List Nat)
  | [] => some []
  | c1 :: c2 :: c3 :: c4 :: rest =>
    if c3 = 61 ∧ c4 = 61 ∧ rest = [] then
      match base64DecodeChar c1, base64DecodeChar c2 with
      | some x, some y => if y % 16 = 0 then some [x * 4 + y / 16] else none
      | _, _ => none
    else if c4 = 61 ∧ rest = [] then
      match base64DecodeChar c1, base64DecodeChar c2, base64DecodeChar c3 with
      | some x, some y, some z =>
        if z % 4 = 0 then some [x * 4 + y / 16, y % 16 * 16 + z / 4] else none
      | _, _, _ => none
    else
      match base64DecodeChar c1, base64DecodeChar c2, base64DecodeChar c3,
            base64DecodeChar c4, base64Decode rest with
      | some x, some y, some z, some w, some tail =>
        some ((x * 4 + y / 16) :: (y % 16 * 16 + z / 4) :: (z % 4 * 64 + w) :: tail)
      | _, _, _, _, _ => none
  | _ => none

/-! ## CryptoManager (src/unnamed/part_003)

Constants and the `encrypt`/`decrypt` pipelines.  The external AEAD
primitive (`crypto.subtle.encrypt/decrypt` with AES-256-GCM) and the key
derivation (`crypto.subtle.deriveKey` with PBKDF2) are parameters; the
parameters of the `deriveKey` call are embedded as `deriveKeyParams`. -/

def PBKDF2_ITERATIONS : Nat := 210000
def SALT_LENGTH : Nat := 32
def IV_LENGTH : Nat := 16
def KEY_LENGTH : Nat := 32

/-- The algorithm record `CryptoManager.deriveKey` passes to
`crypto.subtle.deriveKey`. -/
structure KdfParams where
  name : String
  iterations : Nat
  hash : String
  derivedKeyBits : Nat
deriving DecidableEq, Repr

/-- `{name: 'PBKDF2', iterations: this.PBKDF2_ITERATIONS, hash: 'SHA-256'}`
deriving an AES-GCM key of `KEY_LENGTH * 8` bits. -/
def deriveKeyParams : KdfParams :=
  { name := "PBKDF2"
    iterations := PBKDF2_ITERATIONS
    hash := "SHA-256"
    derivedKeyBits := KEY_LENGTH * 8 }

/-- `CryptoManager.encrypt`: derive `key = kdf pw salt`, AEAD-encrypt the
data under the fresh `iv`, and return `base64(salt ++ iv ++ ciphertext)`.
`kdf` stands for the external PBKDF2 derivation and `aeadEnc` for the
external AES-256-GCM encryption; `salt` and `iv` are the random bytes the
source draws with `crypto.getRandomValues`. -/
def cryptoEncrypt (kdf : List Nat → List Nat → List Nat)
    (aeadEnc : List Nat → List Nat → List Nat → List Nat)
    (data pw salt iv : List Nat) : List Nat :=
  base64Encode (salt ++ iv ++ aeadEnc (kdf pw salt) iv data)

/-- `CryptoManager.decrypt`: base64-decode, split off the 32-byte salt and
16-byte IV (`slice(0,32)`, `slice(32,48)`, `slice(48)`), re-derive the key
and AEAD-decrypt.  `none` models the single uniform
`Error('Invalid password or corrupted data')` thrown by the catch block,
whether the failure came from `atob` or from the AEAD tag check. -/
def cryptoDecrypt (kdf : List Nat → List Nat → List Nat)
    (aeadDec : List Nat → List Nat → List Nat → Option (List Nat))
    (blob pw : List Nat) : Option (List Nat) :=
  match base64Decode blob with
  | none => none
  | some combined =>
    let salt := combined.take SALT_LENGTH
    let iv := (combined.drop SALT_LENGTH).take IV_LENGTH
    let ct := combined.drop (SALT_LENGTH + IV_LENGTH)
    aeadDec (kdf pw salt) iv ct

/-! ## Data model (src/unnamed/part_000, `types.ts`)

`PasswordEntry` and friends.  `Date` values are their millisecond epoch
timestamps (`getTime()`), optional fields are `Option`s; a truthiness
test on an optional boolean field (`p.isCompromised`) holds exactly when
the field is present and `true`. -/

structure CustomField where
  label : String
  value : String
  fieldType : String
deriving DecidableEq, Repr

structure PasswordEntry where
  id : String
  title : String
  username : String
  password : String
  url : Option String := none
  notes : Option String := none
  category : String
  createdAt : Int
  updatedAt : Int
  isFavorite : Option Bool := none
  tags : Option (List String) := none
  lastUsed : Option Int := none
  expiryDate : Option Int := none
  isCompromised : Option Bool := none
  strength : Option Nat := none
  twoFactorSecret : Option String := none
  customFields : Option (List CustomField) := none
deriving DecidableEq, Repr

structure Category where
  id : String
  name : String
  color : String
  icon : String
deriving DecidableEq, Repr

structure Settings where
  autoLockMinutes : Nat
  theme : String
  showPasswordStrength : Bool
  compactView : Bool
  enableBiometric : Bool
  autoFillEnabled : Bool
  passwordExpiryDays : Nat
  enableBreachCheck : Bool
  enableTwoFactor : Bool
  backupFrequency : String
  language : String
deriving DecidableEq, Repr

/-- Truthiness of an optional boolean field. -/
def truthy : Option Bool → Bool
  | some b => b
  | none => false

/-! ## SecurityAnalyzer (src/src/utils/security.ts) -/

/-- `/[a-z]/.test(password)` -/
def hasLowercase (p : String) : Bool :=
  p.data.any fun c => 97 ≤ c.toNat && c.toNat ≤ 122

/-- `/[A-Z]/.test(password)` -/
def hasUppercase (p : String) : Bool :=
  p.data.any fun c => 65 ≤ c.toNat && c.toNat ≤ 90

/-- `/\d/.test(password)` -/
def hasDigit (p : String) : Bool :=
  p.data.any fun c => 48 ≤ c.toNat && c.toNat ≤ 57

/-- Char codes of the punctuation class in
`/[!@#$%^&*(),.?":\x7b\x7d|<>]/` — that is
`! @ # $ % ^ & * ( ) , . ? " : \x7b \x7d | < >`. -/
def strengthSymbols : List Nat :=
  [33, 64, 35, 36, 37, 94, 38, 42, 40, 41, 44, 46, 63, 34, 58, 123, 125, 124, 60, 62]

def hasSymbol (p : String) : Bool :=
  p.data.any fun c => strengthSymbols.contains c.toNat

/-- `SecurityAnalyzer.calculatePasswordStrength`: sequential additive
score, `Math.min(100, score)` at the end. -/
def calculatePasswordStrength (p : String) : Nat :=
  let score0 := 0
  let score1 := if 8 ≤ p.length then score0 + 25 else score0
  let score2 := if 12 ≤ p.length then score1 + 25 else score1
  let score3 := if hasLowercase p && hasUppercase p then score2 + 20 else score2
  let score4 := if hasDigit p then score3 + 15 else score3
  let score5 := if hasSymbol p then score4 + 15 else score4
  min 100 score5

/-- The strength score exactly as the spec words it: the sum of the five
bonuses, capped at 100.  Stated separately from
`calculatePasswordStrength` (which mirrors the source) so that the two
can be compared. -/
def strengthSpecScore (p : String) : Nat :=
  min 100 ((if 8 ≤ p.length then 25 else 0) +
    (if 12 ≤ p.length then 25 else 0) +
    (if hasLowercase p && hasUppercase p then 20 else 0) +
    (if hasDigit p then 15 else 0) +
    (if hasSymbol p then 15 else 0))

/-- Key list of the `Map` in `findReusedPasswords`: JavaScript `Map`
iteration follows first-insertion order, so a key is appended the first
time its password is seen. -/
def insertMapKey (ks : List String) (k : String) : List String :=
  if k ∈ ks then ks else ks ++ [k]

def passwordMapKeys (ps : List PasswordEntry) : List String :=
  ps.foldl (fun ks p => insertMapKey ks p.password) []

/-- The `Map` group for one password value: the entries pushed for that
key, in traversal order. -/
def passwordGroup (ps : List PasswordEntry) (pw : String) : List PasswordEntry :=
  ps.filter fun p => p.password = pw

/-- `SecurityAnalyzer.findReusedPasswords`: every member of every group
with more than one entry, in map-iteration order. -/
def findReusedPasswords (ps : List PasswordEntry) : List PasswordEntry :=
  (passwordMapKeys ps).foldl
    (fun acc pw =>
      if 1 < (passwordGroup ps pw).length then acc ++ passwordGroup ps pw else acc)
    []

/-- `SecurityAnalyzer.isPasswordExpired` at current time `now` (ms):
without an explicit `expiryDate`, expired once `now` passes
`createdAt + expiryDays` days; with one, once `now` passes it. -/
def isPasswordExpired (now : Int) (p : PasswordEntry) (expiryDays : Int := 90) : Bool :=
  match p.expiryDate with
  | none => decide (p.createdAt + expiryDays * 24 * 60 * 60 * 1000 < now)
  | some d => decide (d < now)

structure SecurityReportModel where
  weakPasswords : Nat
  reusedPasswords : Nat
  expiredPasswords : Nat
  compromisedPasswords : Nat
  totalPasswords : Nat
  securityScore : ℚ
  lastUpdated : Int
  weakPasswordsList : List PasswordEntry
  reusedPasswordsList : List PasswordEntry
  expiredPasswordsList : List PasswordEntry
  compromisedPasswordsList : List PasswordEntry
deriving DecidableEq, Repr

/-- `SecurityAnalyzer.analyzePasswordSecurity` at current time `now`;
JavaScript number arithmetic on the score is modelled exactly, over `ℚ`. -/
def analyzePasswordSecurity (now : Int) (ps : List PasswordEntry) : SecurityReportModel :=
  let weak := ps.filter fun p => calculatePasswordStrength p.password < 60
  let reused := findReusedPasswords ps
  let expired := ps.filter fun p => isPasswordExpired now p
  let compromised := ps.filter fun p => truthy p.isCompromised
  let score : ℚ :=
    if 0 < ps.length then
      max 0 (100 - (weak.length : ℚ) / (ps.length : ℚ) * 30
               - (reused.length : ℚ) / (ps.length : ℚ) * 25
               - (expired.length : ℚ) / (ps.length : ℚ) * 20
               - (compromised.length : ℚ) / (ps.length : ℚ) * 25)
    else 100
  { weakPasswords := weak.length
    reusedPasswords := reused.length
    expiredPasswords := expired.length
    compromisedPasswords := compromised.length
    totalPasswords := ps.length
    securityScore := score
    lastUpdated := now
    weakPasswordsList := weak
    reusedPasswordsList := reused
    expiredPasswordsList := expired
    compromisedPasswordsList := compromised }

/-- Upper-case hex of one byte: `b.toString(16).padStart(2, '0')`
followed by `.toUpperCase()`, as char codes. -/
def hexUpperDigit (n : Nat) : Nat :=
  if n < 10 then 48 + n else 65 + (n - 10)

def byteToHexUpper (b : Nat) : List Nat :=
  [hexUpperDigit (b / 16 % 16), hexUpperDigit (b % 16)]

/-- `pat` is an initial run of `text` (char-code lists). -/
def leadsWith : List Nat → List Nat → Bool
  | [], _ => true
  | _ :: _, [] => false
  | a :: as, b :: bs => a == b && leadsWith as bs

/-- `text.includes(pat)`: some tail of `text` starts with `pat`. -/
def includesSub (text pat : List Nat) : Bool :=
  text.tails.any fun t => leadsWith pat t

/-- `SecurityAnalyzer.checkPasswordBreach`.  The external SHA-1 digest
(`crypto.subtle.digest`) and the network fetch of the k-anonymity range
(request plus `response.text()`) are `Option`-valued parameters; `none`
is a throw, absorbed by the surrounding `try/catch` which returns
`false`. -/
def checkPasswordBreach (sha1 : String → Option (List Nat))
    (fetchRange : List Nat → Option (List Nat)) (password : String) : Bool :=
  match sha1 password with
  | none => false
  | some digest =>
    let hashHex := digest.flatMap byteToHexUpper
    let pfx := hashHex.take 5
    let sfx := hashHex.drop 5
    match fetchRange pfx with
    | none => false
    | some text => includesSub text sfx

/-! ## App context (src/unnamed/part_004)

`localStorage` / `sessionStorage` are association lists from keys to
string values with `setItem` replace-or-append semantics; the external
SHA-256 identity hash, `JSON.stringify`/`JSON.parse` for the users list
and the vault payload, and `CryptoManager.encrypt` (whose randomness is
external) are parameters. -/

def Store := List (String × String)

def storeGet : Store → String → Option String
  | [], _ => none
  | kv :: rest, k => if kv.1 = k then some kv.2 else storeGet rest k

def storeSet : Store → String → String → Store
  | [], k, v => [(k, v)]
  | kv :: rest, k, v =>
    if kv.1 = k then (k, v) :: rest else kv :: storeSet rest k v

def getUserStorageKey (userHash : String) : String :=
  "passwordManager_" ++ userHash

def getUsersListKey : String :=
  "passwordManager_users"

structure UserInfo where
  hash : String
  createdAt : String
  lastLogin : String
  hint : String
deriving DecidableEq, Repr

/-- The hint built in `addUserToList`:
`masterPassword.substring(0, 3) + '... (' + length + ' chars)'`. -/
def passwordHint (masterPassword : String) : String :=
  masterPassword.take 3 ++ "... (" ++ toString masterPassword.length ++ " chars)"

/-- `addUserToList`'s update of the parsed users list: update the first
record with this hash (refreshing `lastLogin`), or push a new record. -/
def upsertUser (userHash masterPassword now : String) : List UserInfo → List UserInfo
  | [] => [{ hash := userHash, createdAt := now, lastLogin := now
             hint := passwordHint masterPassword }]
  | u :: us =>
    if u.hash = userHash then { u with lastLogin := now } :: us
    else u :: upsertUser userHash masterPassword now us

/-- The `initialData` object built by `signup`. -/
structure InitialVaultData where
  passwords : List PasswordEntry
  categories : List Category
  settings : Settings
  createdAt : String
  version : String
deriving DecidableEq, Repr

def defaultCategories : List Category :=
  [ { id := "1", name := "Personal", color := "#3B82F6", icon := "User" },
    { id := "2", name := "Work", color := "#EF4444", icon := "Briefcase" },
    { id := "3", name := "Social", color := "#10B981", icon := "Users" },
    { id := "4", name := "Finance", color := "#F59E0B", icon := "CreditCard" },
    { id := "5", name := "Shopping", color := "#8B5CF6", icon := "ShoppingBag" } ]

def defaultSettings : Settings :=
  { autoLockMinutes := 15
    theme := "light"
    showPasswordStrength := true
    compactView := false
    enableBiometric := false
    autoFillEnabled := true
    passwordExpiryDays := 90
    enableBreachCheck := true
    enableTwoFactor := false
    backupFrequency := "weekly"
    language := "en" }

def initialVaultData (now : String) : InitialVaultData :=
  { passwords := []
    categories := defaultCategories
    settings := defaultSettings
    createdAt := now
    version := "2.0" }

structure SignupResult where
  ok : Bool
  localStore : Store
  sessionMaster : Option String
  sessionUserHash : Option String

/-- `signup(masterPassword)` from the app context.  Parameters stand for
the externals: `userHash` is `getUserHash` (SHA-256 hex digest),
`stringifyVault`/`encodeUsers`/`parseUsers` are `JSON.stringify`/`parse`,
`encryptFn data pw` is `CryptoManager.encrypt` with its internally drawn
randomness, and `now` is `new Date().toISOString()`.  A thrown
`'Account with this master password already exists'` is caught and turned
into `false` before any write happens. -/
def signup (userHash : String → String)
    (stringifyVault : InitialVaultData → String)
    (encryptFn : String → String → String)
    (encodeUsers : List UserInfo → String)
    (parseUsers : String → List UserInfo)
    (now : String) (masterPassword : String) (ls : Store) : SignupResult :=
  let h := userHash masterPassword
  let userStorageKey := getUserStorageKey h
  match storeGet ls userStorageKey with
  | some _ =>
    { ok := false, localStore := ls, sessionMaster := none, sessionUserHash := none }
  | none =>
    let encrypted := encryptFn (stringifyVault (initialVaultData now)) masterPassword
    let ls1 := storeSet ls userStorageKey encrypted
    let users :=
      match storeGet ls1 getUsersListKey with
      | some s => parseUsers s
      | none => []
    let ls2 := storeSet ls1 getUsersListKey
      (encodeUsers (upsertUser h masterPassword now users))
    { ok := true, localStore := ls2
      sessionMaster := some masterPassword, sessionUserHash := some h }

/-- `importData(data)` restricted to the password list: when
`data.passwords` is an array, append those imported entries whose `id` is
not already present; otherwise leave the list alone.  (`data.settings`
only touches settings, never the entry list.) -/
def importDataPasswords (current : List PasswordEntry)
    (imported : Option (List PasswordEntry)) : List PasswordEntry :=
  match imported with
  | none => current
  | some arr =>
    let existingIds := current.map fun p => p.id
    current ++ arr.filter fun p => ¬ existingIds.contains p.id

/-- The aggregate-score fraction as the spec words it: `count/total`,
`0` when `total` is `0`. -/
def specFraction (count total : Nat) : ℚ :=
  if total = 0 then 0 else (count : ℚ) / (total : ℚ)

/-- The aggregate score exactly as the spec words it:
`100 − 30·weakFraction − 25·reusedFraction − 20·expiredFraction −
25·compromisedFraction`, clamped to `[0, 100]`.  Stated separately from
`analyzePasswordSecurity` (which mirrors the source) so the two can be
compared. -/
def specAggregateScore (weak reused expired compromised total : Nat) : ℚ :=
  min 100 (max 0 (100 - 30 * specFraction weak total
    - 25 * specFraction reused total
    - 20 * specFraction expired total
    - 25 * specFraction compromised total))

/-- Sample entries used by concrete instances of the claims. -/
def entryX1 : PasswordEntry :=
  { id := "1", title := "A", username := "u", password := "x"
    category := "1", createdAt := 0, updatedAt := 0 }

def entryX2 : PasswordEntry :=
  { id := "2", title := "B", username := "v", password := "x"
    category := "1", createdAt := 0, updatedAt := 0 }

def entryY : PasswordEntry :=
  { id := "3", title := "C", username := "w", password := "y"
    category := "1", createdAt := 0, updatedAt := 0 }

/-- An entry that is simultaneously weak, reused (together with its
twin), expired and compromised at time `now = 0`. -/
def badEntry (id : String) : PasswordEntry :=
  { id := id, title := "T", username := "u", password := "x"
    category := "1", createdAt := 0, updatedAt := 0
    expiryDate := some (-1), isCompromised := some true }

/-! ## Helper lemmas -/

theorem base64DecodeChar_alphabet : ∀ i < 64, base64DecodeChar (base64Alphabet i) = some i := by
  decide

theorem base64Alphabet_ne_61 (i : Nat) : base64Alphabet i ≠ 61 := by
  unfold base64Alphabet; split_ifs <;> omega

theorem base64_roundTrip (bs : List Nat) (hb : ∀ b ∈ bs, b < 256) :
    base64Decode (base64Encode bs) = some bs := by
  induction bs using base64Encode.induct with
  | case1 => rfl
  | case2 a =>
    have ha : a < 256 := hb a (by simp)
    simp only [base64Encode, base64Decode]
    rw [if_pos (by decide),
        base64DecodeChar_alphabet (a / 4) (by omega),
        base64DecodeChar_alphabet (a % 4 * 16) (by omega)]
    simp only
    rw [if_pos (by omega)]
    simp only [Option.some.injEq, List.cons.injEq, and_true]
    omega
  | case3 a b =>
    have ha : a < 256 := hb a (by simp)
    have hbb : b < 256 := hb b (by simp)
    simp only [base64Encode, base64Decode]
    rw [if_neg (by intro h; exact base64Alphabet_ne_61 _ h.1),
        if_pos (by decide),
        base64DecodeChar_alphabet (a / 4) (by omega),
        base64DecodeChar_alphabet (a % 4 * 16 + b / 16) (by omega),
        base64DecodeChar_alphabet (b % 16 * 4) (by omega)]
    simp only
    rw [if_pos (by omega)]
    simp only [Option.some.injEq, List.cons.injEq, and_true]
    omega
  | case4 a b c rest ih =>
    have ha : a < 256 := hb a (by simp)
    have hbb : b < 256 := hb b (by simp)
    have hc : c < 256 := hb c (by simp)
    have hrest : ∀ x ∈ rest, x < 256 := fun x hx => hb x (by simp [hx])
    simp only [base64Encode, base64Decode]
    rw [if_neg (by intro h; exact base64Alphabet_ne_61 _ h.1),
        if_neg (by intro h; exact base64Alphabet_ne_61 _ h.1),
        base64DecodeChar_alphabet (a / 4) (by omega),
        base64DecodeChar_alphabet (a % 4 * 16 + b / 16) (by omega),
        base64DecodeChar_alphabet (b % 16 * 4 + c / 64) (by omega),
        base64DecodeChar_alphabet (c % 64) (by omega),
        ih hrest]
    simp only [Option.some.injEq, List.cons.injEq, and_true]
    omega

theorem listTake_append_of_length {α : Type} (l₁ l₂ : List α) (n : Nat)
    (h : l₁.length = n) : (l₁ ++ l₂).take n = l₁ := by
  subst h; simp

theorem listDrop_append_of_length {α : Type} (l₁ l₂ : List α) (n : Nat)
    (h : l₁.length = n) : (l₁ ++ l₂).drop n = l₂ := by
  subst h; simp

/-! ## Claims -/

/-- C1: for every plaintext, passphrase, and every value of the 32-byte
salt and 16-byte nonce drawn inside `encrypt`, decrypting the output of
`CryptoManager.encrypt` under the same passphrase returns exactly the
plaintext.  The external PBKDF2 derivation `kdf` and AES-256-GCM
primitive `aeadEnc`/`aeadDec` are arbitrary subject to the AEAD
round-trip contract `haead`; byte-validity of the ciphertext is what
WebCrypto's `Uint8Array` guarantees. -/
theorem claim_C1_encrypt_decrypt_roundTrip
    (kdf : List Nat → List Nat → List Nat)
    (aeadEnc : List Nat → List Nat → List Nat → List Nat)
    (aeadDec : List Nat → List Nat → List Nat → Option (List Nat))
    (haead : ∀ k n d, aeadDec k n (aeadEnc k n d) = some d)
    (data pw salt iv : List Nat)
    (hsl : salt.length = 32) (hivl : iv.length = 16)
    (hsb : ∀ b ∈ salt, b < 256) (hivb : ∀ b ∈ iv, b < 256)
    (hctb : ∀ b ∈ aeadEnc (kdf pw salt) iv data, b < 256) :
    cryptoDecrypt kdf aeadDec (cryptoEncrypt kdf aeadEnc data pw salt iv) pw = some data := by
  unfold cryptoEncrypt cryptoDecrypt
  rw [base64_roundTrip _ (by
    intro b hbm
    rcases List.mem_append.1 hbm with h | h
    · rcases List.mem_append.1 h with h' | h'
      · exact hsb b h'
      · exact hivb b h'
    · exact hctb b h)]
  simp only [SALT_LENGTH, IV_LENGTH]
  rw [listDrop_append_of_length _ _ (32 + 16) (by simp [hsl, hivl]),
      List.append_assoc,
      listTake_append_of_length _ _ _ hsl, listDrop_append_of_length _ _ _ hsl,
      listTake_append_of_length _ _ _ hivl]
  exact haead _ _ _

/-- Witness for C1: a concrete round trip, with the identity AEAD (which
satisfies the round-trip contract) at a concrete salt, nonce, plaintext
and passphrase. -/
theorem claim_C1_witness :
    cryptoDecrypt (fun _ _ => []) (fun _ _ c => some c)
      (cryptoEncrypt (fun _ _ => []) (fun _ _ d => d)
        [72, 105] [1, 2] (List.replicate 32 0) (List.replicate 16 7)) [1, 2]
      = some [72, 105] :=
  claim_C1_encrypt_decrypt_roundTrip
    (fun _ _ => []) (fun _ _ d => d) (fun _ _ c => some c)
    (fun _ _ _ => rfl) [72, 105] [1, 2] (List.replicate 32 0) (List.replicate 16 7)
    (by decide) (by decide) (by decide) (by decide) (by decide)

/-- C3: every blob produced by `encrypt` is
`base64(salt[32] ++ nonce[16] ++ ciphertext)`: decoding the base64 gives
back exactly the concatenation, whose first 32 bytes are the salt drawn
for this encryption and next 16 bytes the nonce drawn for this
encryption (both universally quantified, i.e. whatever
`crypto.getRandomValues` returned); and the key-derivation call is
PBKDF2 with `SHA-256`, an iteration count of `210000 ≥ 210000`, and a
256-bit derived key. -/
theorem claim_C3_blob_format
    (kdf : List Nat → List Nat → List Nat)
    (aeadEnc : List Nat → List Nat → List Nat → List Nat)
    (data pw salt iv : List Nat)
    (hsl : salt.length = 32) (hivl : iv.length = 16)
    (hsb : ∀ b ∈ salt, b < 256) (hivb : ∀ b ∈ iv, b < 256)
    (hctb : ∀ b ∈ aeadEnc (kdf pw salt) iv data, b < 256) :
    base64Decode (cryptoEncrypt kdf aeadEnc data pw salt iv)
      = some (salt ++ iv ++ aeadEnc (kdf pw salt) iv data)
    ∧ (salt ++ iv ++ aeadEnc (kdf pw salt) iv data).take SALT_LENGTH = salt
    ∧ ((salt ++ iv ++ aeadEnc (kdf pw salt) iv data).drop SALT_LENGTH).take IV_LENGTH = iv
    ∧ (salt ++ iv ++ aeadEnc (kdf pw salt) iv data).drop (SALT_LENGTH + IV_LENGTH)
        = aeadEnc (kdf pw salt) iv data
    ∧ SALT_LENGTH = 32 ∧ IV_LENGTH = 16
    ∧ deriveKeyParams.name = "PBKDF2"
    ∧ 210000 ≤ deriveKeyParams.iterations
    ∧ deriveKeyParams.hash = "SHA-256"
    ∧ deriveKeyParams.derivedKeyBits = 256 := by
  refine ⟨?_, ?_, ?_, ?_, rfl, rfl, rfl, le_refl _, rfl, rfl⟩
  · unfold cryptoEncrypt
    exact base64_roundTrip _ (by
      intro b hbm
      rcases List.mem_append.1 hbm with h | h
      · rcases List.mem_append.1 h with h' | h'
        · exact hsb b h'
        · exact hivb b h'
      · exact hctb b h)
  · simp only [SALT_LENGTH, List.append_assoc]
    exact listTake_append_of_length _ _ _ hsl
  · simp only [SALT_LENGTH, IV_LENGTH, List.append_assoc]
    rw [listDrop_append_of_length _ _ _ hsl]
    exact listTake_append_of_length _ _ _ hivl
  · simp only [SALT_LENGTH, IV_LENGTH]
    exact listDrop_append_of_length _ _ (32 + 16) (by simp [hsl, hivl])

/-- Witness for C3: the blob structure at a concrete salt, nonce,
plaintext and AEAD. -/
theorem claim_C3_witness :
    base64Decode (cryptoEncrypt (fun _ _ => []) (fun _ _ d => d)
        [72, 105] [1, 2] (List.replicate 32 0) (List.replicate 16 7))
      = some (List.replicate 32 0 ++ List.replicate 16 7 ++ [72, 105])
    ∧ deriveKeyParams.iterations = 210000 :=
  ⟨(claim_C3_blob_format (fun _ _ => []) (fun _ _ d => d)
      [72, 105] [1, 2] (List.replicate 32 0) (List.replicate 16 7)
      (by decide) (by decide) (by decide) (by decide) (by decide)).1,
   rfl⟩

/-- C5: for every password string, the strength score equals the sum of
the five bonuses the spec lists (25 for length ≥ 8, a further 25 for
length ≥ 12, 20 for mixed case, 15 for a digit, 15 for a symbol of the
defined punctuation set), capped at 100; the function is pure, so
scoring the same string twice yields the same score. -/
theorem claim_C5_strength_formula (p : String) :
    calculatePasswordStrength p = strengthSpecScore p
    ∧ calculatePasswordStrength p ≤ 100
    ∧ calculatePasswordStrength p = calculatePasswordStrength p := by
  refine ⟨?_, ?_, rfl⟩
  · simp only [calculatePasswordStrength, strengthSpecScore]
    split_ifs <;> omega
  · simp only [calculatePasswordStrength]
    split_ifs <;> omega

/-- C6 counterexample: the entry added with password `"abc"` does not
receive strength 25 — `calculatePasswordStrength "abc"` is 0, since a
3-character password meets none of the scoring criteria (in particular
not the length-≥-8 one). -/
theorem claim_C6_counterexample :
    calculatePasswordStrength "abc" = 0 ∧ calculatePasswordStrength "abc" ≠ 25 := by
  decide

/-- C6 (amended): in the signup scenario, the entry added with password
`"abc"` receives a computed strength score of 0: its length 3 is below
every length threshold and it contains no upper-case letter, digit or
symbol. -/
theorem claim_C6_strength_abc : calculatePasswordStrength "abc" = 0 := by
  decide

theorem mem_insertMapKey (ks : List String) (k x : String) :
    x ∈ insertMapKey ks k ↔ x ∈ ks ∨ x = k := by
  unfold insertMapKey
  split_ifs with h
  · constructor
    · exact Or.inl
    · rintro (hx | rfl)
      · exact hx
      · exact h
  · simp

theorem mem_passwordMapKeys_foldl (ps : List PasswordEntry) :
    ∀ (acc : List String) (k : String),
      k ∈ ps.foldl (fun ks p => insertMapKey ks p.password) acc
        ↔ k ∈ acc ∨ ∃ p ∈ ps, p.password = k := by
  induction ps with
  | nil => simp
  | cons p ps ih =>
    intro acc k
    simp only [List.foldl_cons, ih, mem_insertMapKey, List.mem_cons]
    constructor
    · rintro ((h | h) | ⟨q, hq, hqk⟩)
      · exact Or.inl h
      · exact Or.inr ⟨p, Or.inl rfl, h.symm⟩
      · exact Or.inr ⟨q, Or.inr hq, hqk⟩
    · rintro (h | ⟨q, hq | hq, hqk⟩)
      · exact Or.inl (Or.inl h)
      · subst hq; exact Or.inl (Or.inr hqk.symm)
      · exact Or.inr ⟨q, hq, hqk⟩

theorem mem_passwordMapKeys (ps : List PasswordEntry) (k : String) :
    k ∈ passwordMapKeys ps ↔ ∃ p ∈ ps, p.password = k := by
  unfold passwordMapKeys
  rw [mem_passwordMapKeys_foldl]
  simp

theorem mem_reused_foldl (ps : List PasswordEntry) :
    ∀ (keys : List String) (acc : List PasswordEntry) (e : PasswordEntry),
      e ∈ keys.foldl
        (fun acc pw =>
          if 1 < (passwordGroup ps pw).length then acc ++ passwordGroup ps pw else acc)
        acc
      ↔ e ∈ acc ∨ ∃ pw ∈ keys, 1 < (passwordGroup ps pw).length ∧ e ∈ passwordGroup ps pw := by
  intro keys
  induction keys with
  | nil => simp
  | cons pw keys ih =>
    intro acc e
    simp only [List.foldl_cons, ih, List.mem_cons]
    constructor
    · rintro (h | ⟨pw', hpw', hlen, hg⟩)
      · split_ifs at h with hl
        · rcases List.mem_append.1 h with h' | h'
          · exact Or.inl h'
          · exact Or.inr ⟨pw, Or.inl rfl, hl, h'⟩
        · exact Or.inl h
      · exact Or.inr ⟨pw', Or.inr hpw', hlen, hg⟩
    · rintro (h | ⟨pw', hpw' | hpw', hlen, hg⟩)
      · left; split_ifs
        · exact List.mem_append.2 (Or.inl h)
        · exact h
      · subst hpw'
        left
        rw [if_pos hlen]
        exact List.mem_append.2 (Or.inr hg)
      · exact Or.inr ⟨pw', hpw', hlen, hg⟩

theorem mem_passwordGroup (ps : List PasswordEntry) (pw : String) (e : PasswordEntry) :
    e ∈ passwordGroup ps pw ↔ e ∈ ps ∧ e.password = pw := by
  unfold passwordGroup
  simp [List.mem_filter]

/-- C8: reuse detection reports exactly the members of the groups that
share a secret with at least one other entry — an entry is reported iff
more than one entry of the collection carries its exact password — and
on the three entries with secrets `"x"`, `"x"`, `"y"` the reused count
is 2, not 3. -/
theorem claim_C8_reuse_detection :
    (∀ (ps : List PasswordEntry) (e : PasswordEntry),
      e ∈ findReusedPasswords ps ↔ e ∈ ps ∧ 1 < (passwordGroup ps e.password).length)
    ∧ (findReusedPasswords [entryX1, entryX2, entryY]).length = 2
    ∧ (findReusedPasswords [entryX1, entryX2, entryY]).length ≠ 3 := by
  refine ⟨?_, by decide, by decide⟩
  intro ps e
  unfold findReusedPasswords
  rw [mem_reused_foldl]
  simp only [List.not_mem_nil, false_or]
  constructor
  · rintro ⟨pw, _, hlen, hg⟩
    rcases (mem_passwordGroup ps pw e).1 hg with ⟨he, hpw⟩
    subst hpw
    exact ⟨he, hlen⟩
  · rintro ⟨he, hlen⟩
    exact ⟨e.password, (mem_passwordMapKeys ps e.password).2 ⟨e, he, rfl⟩,
      hlen, (mem_passwordGroup ps e.password e).2 ⟨he, rfl⟩⟩

/-- Witness for C8: a concrete application of the characterisation — the
first `"x"`-entry is reported as reused among `"x"`, `"x"`, `"y"`. -/
theorem claim_C8_witness :
    entryX1 ∈ findReusedPasswords [entryX1, entryX2, entryY] :=
  (claim_C8_reuse_detection.1 [entryX1, entryX2, entryY] entryX1).2
    ⟨by decide, by decide⟩

/-- C7: the aggregate security score of `analyzePasswordSecurity` equals
the spec's clamped formula
`100 − 30·weakFraction − 25·reusedFraction − 20·expiredFraction −
25·compromisedFraction` over the report's own counts; the empty
collection scores 100; and when every entry is simultaneously counted
weak, reused, expired and compromised the score is 0. -/
theorem claim_C7_aggregate_score (now : Int) (ps : List PasswordEntry) :
    (analyzePasswordSecurity now ps).securityScore
      = specAggregateScore (analyzePasswordSecurity now ps).weakPasswords
          (analyzePasswordSecurity now ps).reusedPasswords
          (analyzePasswordSecurity now ps).expiredPasswords
          (analyzePasswordSecurity now ps).compromisedPasswords
          (analyzePasswordSecurity now ps).totalPasswords
    ∧ (ps = [] → (analyzePasswordSecurity now ps).securityScore = 100)
    ∧ ((analyzePasswordSecurity now ps).weakPasswords
          = (analyzePasswordSecurity now ps).totalPasswords →
       (analyzePasswordSecurity now ps).reusedPasswords
          = (analyzePasswordSecurity now ps).totalPasswords →
       (analyzePasswordSecurity now ps).expiredPasswords
          = (analyzePasswordSecurity now ps).totalPasswords →
       (analyzePasswordSecurity now ps).compromisedPasswords
          = (analyzePasswordSecurity now ps).totalPasswords →
       0 < ps.length →
       (analyzePasswordSecurity now ps).securityScore = 0) := by
  simp only [analyzePasswordSecurity, specAggregateScore, specFraction]
  by_cases hz : ps.length = 0
  · simp [hz]
  · have hlen : 0 < ps.length := Nat.pos_of_ne_zero hz
    have hcast : (ps.length : ℚ) ≠ 0 := by exact_mod_cast hz
    simp only [if_pos hlen, if_neg hz]
    have hw : (0 : ℚ) ≤ ((ps.filter fun p =>
        calculatePasswordStrength p.password < 60).length : ℚ) / (ps.length : ℚ) * 30 := by
      positivity
    have hr : (0 : ℚ) ≤ ((findReusedPasswords ps).length : ℚ) / (ps.length : ℚ) * 25 := by
      positivity
    have he : (0 : ℚ) ≤ ((ps.filter fun p =>
        isPasswordExpired now p).length : ℚ) / (ps.length : ℚ) * 20 := by
      positivity
    have hc : (0 : ℚ) ≤ ((ps.filter fun p =>
        truthy p.isCompromised).length : ℚ) / (ps.length : ℚ) * 25 := by
      positivity
    refine ⟨?_, ?_, ?_⟩
    · rw [min_eq_right (max_le (by norm_num) (by linarith))]
      congr 1
      ring
    · intro habs
      exact absurd (congrArg List.length habs) (by simpa using hz)
    · intro h1 h2 h3 h4 _
      rw [h1, h2, h3, h4, div_self hcast]
      norm_num

/-- Witness for C7: the two-entry collection in which every entry is
weak, reused, expired and compromised scores 0, and the empty collection
scores 100. -/
theorem claim_C7_witness :
    (analyzePasswordSecurity 0 [badEntry "1", badEntry "2"]).securityScore = 0
    ∧ (analyzePasswordSecurity 0 []).securityScore = 100 :=
  ⟨(claim_C7_aggregate_score 0 [badEntry "1", badEntry "2"]).2.2
      (by decide) (by decide) (by decide) (by decide) (by decide),
   (claim_C7_aggregate_score 0 []).2.1 rfl⟩

/-- C9: `checkPasswordBreach` never propagates a failure.  For every
password: if the external SHA-1 digest throws (`sha1 pw = none`) the
result degrades to `false`, and if the digest succeeds but the network
request (or reading its body) throws, the result also degrades to
`false`; no error reaches the caller — the function is total with
result type `Bool`. -/
theorem claim_C9_breach_check_absorbs_failures
    (sha1 : String → Option (List Nat))
    (fetchRange : List Nat → Option (List Nat)) (password : String) :
    (sha1 password = none → checkPasswordBreach sha1 fetchRange password = false)
    ∧ (∀ digest, sha1 password = some digest →
        fetchRange ((digest.flatMap byteToHexUpper).take 5) = none →
        checkPasswordBreach sha1 fetchRange password = false) := by
  constructor
  · intro h
    unfold checkPasswordBreach
    rw [h]
  · intro digest hd hf
    unfold checkPasswordBreach
    rw [hd]
    simp only [hf]

/-- Witness for C9: with a throwing digest, and with a succeeding digest
but a throwing network fetch, the result is `false` in both cases. -/
theorem claim_C9_witness :
    checkPasswordBreach (fun _ => none) (fun _ => none) "pw" = false
    ∧ checkPasswordBreach (fun _ => some [1, 2]) (fun _ => none) "pw" = false :=
  ⟨(claim_C9_breach_check_absorbs_failures (fun _ => none) (fun _ => none) "pw").1 rfl,
   (claim_C9_breach_check_absorbs_failures (fun _ => some [1, 2]) (fun _ => none) "pw").2
     [1, 2] rfl rfl⟩

/-- C10: `importData` never removes or modifies an existing entry — the
current list is a prefix of the result, so every entry present before
the import is still present with identical field values — and an element
of the result is either an old entry or an imported entry whose `id`
does not occur in the current list. -/
theorem claim_C10_import_preserves_entries
    (current : List PasswordEntry) (imported : Option (List PasswordEntry)) :
    current <+: importDataPasswords current imported
    ∧ (∀ e ∈ current, e ∈ importDataPasswords current imported)
    ∧ (∀ e ∈ importDataPasswords current imported,
        e ∈ current
        ∨ ∃ arr, imported = some arr ∧ e ∈ arr ∧ ∀ q ∈ current, q.id ≠ e.id) := by
  unfold importDataPasswords
  match imported with
  | none =>
    exact ⟨List.prefix_refl _, fun e he => he, fun e he => Or.inl he⟩
  | some arr =>
    refine ⟨⟨_, rfl⟩, fun e he => List.mem_append.2 (Or.inl he), ?_⟩
    intro e he
    rcases List.mem_append.1 he with h | h
    · exact Or.inl h
    · rcases List.mem_filter.1 h with ⟨harr, hid⟩
      refine Or.inr ⟨arr, rfl, harr, ?_⟩
      intro q hq hqe
      have : (current.map fun p => p.id).contains e.id := by
        simp only [List.contains, List.elem_eq_mem, decide_eq_true_eq]
        exact List.mem_map.2 ⟨q, hq, hqe⟩
      simp [this] at hid
      exact hid q hq hqe

/-- Witness for C10: a concrete import — the existing entry survives
an import that contains a fresh entry. -/
theorem claim_C10_witness :
    entryX1 ∈ importDataPasswords [entryX1] (some [entryY]) :=
  (claim_C10_import_preserves_entries [entryX1] (some [entryY])).2.1 entryX1 (by decide)

theorem storeGet_storeSet_self (s : Store) (k v : String) :
    storeGet (storeSet s k v) k = some v := by
  induction s with
  | nil => simp [storeSet, storeGet]
  | cons kv rest ih =>
    unfold storeSet
    split_ifs with h
    · simp [storeGet]
    · unfold storeGet
      rw [if_neg h]
      exact ih

theorem storeGet_storeSet_ne (s : Store) (k k' v : String) (h : k' ≠ k) :
    storeGet (storeSet s k v) k' = storeGet s k' := by
  induction s with
  | nil =>
    simp only [storeSet, storeGet]
    rw [if_neg (fun hh : k = k' => h hh.symm)]
  | cons kv rest ih =>
    unfold storeSet
    split_ifs with hk
    · unfold storeGet
      rw [if_neg (fun hh : k = k' => h hh.symm), if_neg (hk ▸ fun hh : k = k' => h hh.symm)]
    · unfold storeGet
      by_cases hkv : kv.1 = k'
      · rw [if_pos hkv, if_pos hkv]
      · rw [if_neg hkv, if_neg hkv]
        exact ih

theorem upsertUser_registers (userHash masterPassword now : String) :
    ∀ users : List UserInfo,
      ∃ u ∈ upsertUser userHash masterPassword now users, u.hash = userHash := by
  intro users
  induction users with
  | nil =>
    exact ⟨{ hash := userHash, createdAt := now, lastLogin := now
             hint := passwordHint masterPassword }, by simp [upsertUser], rfl⟩
  | cons u us ih =>
    unfold upsertUser
    split_ifs with h
    · exact ⟨{ u with lastLogin := now }, by simp, h⟩
    · rcases ih with ⟨w, hw, hwh⟩
      exact ⟨w, by simp [hw], hwh⟩

theorem userStorageKey_ne_usersListKey (h : String) (hne : h ≠ "users") :
    getUserStorageKey h ≠ getUsersListKey := by
  intro he
  apply hne
  unfold getUserStorageKey getUsersListKey at he
  have h2 : ("passwordManager_" ++ h).data = ("passwordManager_" ++ "users").data := by
    rw [he]; decide
  rw [String.data_append, String.data_append] at h2
  exact String.ext (List.append_cancel_left h2)

/-- C4: `signup(passphrase)` fails — returns `false` with the whole
local store (in particular the stored vault blob for the identity hash)
unchanged — whenever a value already exists under the passphrase's
identity-hash storage key; when none exists it persists, under that key,
the encryption of the serialized initial snapshot whose password list is
empty, registers a user record carrying the identity hash in the users
list, and succeeds.  `userHash`, JSON serialization and
`CryptoManager.encrypt` are the external parameters; the side condition
`userHash masterPassword ≠ "users"` holds of the real `getUserHash`,
whose SHA-256 hex output has 64 characters. -/
theorem claim_C4_signup
    (userHash : String → String)
    (stringifyVault : InitialVaultData → String)
    (encryptFn : String → String → String)
    (encodeUsers : List UserInfo → String)
    (parseUsers : String → List UserInfo)
    (now masterPassword : String) (ls : Store) :
    (storeGet ls (getUserStorageKey (userHash masterPassword)) ≠ none →
      signup userHash stringifyVault encryptFn encodeUsers parseUsers
          now masterPassword ls
        = { ok := false, localStore := ls
            sessionMaster := none, sessionUserHash := none })
    ∧ (storeGet ls (getUserStorageKey (userHash masterPassword)) = none →
       userHash masterPassword ≠ "users" →
      (signup userHash stringifyVault encryptFn encodeUsers parseUsers
          now masterPassword ls).ok = true
      ∧ storeGet (signup userHash stringifyVault encryptFn encodeUsers parseUsers
            now masterPassword ls).localStore
          (getUserStorageKey (userHash masterPassword))
        = some (encryptFn (stringifyVault (initialVaultData now)) masterPassword)
      ∧ (initialVaultData now).passwords = []
      ∧ ∃ us, storeGet (signup userHash stringifyVault encryptFn encodeUsers parseUsers
            now masterPassword ls).localStore getUsersListKey
          = some (encodeUsers us)
          ∧ ∃ u ∈ us, u.hash = userHash masterPassword) := by
  constructor
  · intro hex
    rcases Option.ne_none_iff_exists'.1 hex with ⟨v, hv⟩
    simp only [signup]
    rw [hv]
  · intro hnone hne
    have hkey := userStorageKey_ne_usersListKey (userHash masterPassword) hne
    simp only [signup]
    rw [hnone]
    refine ⟨rfl, ?_, rfl, ?_⟩
    · rw [storeGet_storeSet_ne _ _ _ _ hkey, storeGet_storeSet_self]
    · exact ⟨_, storeGet_storeSet_self _ _ _, upsertUser_registers _ _ _ _⟩

/-- Witness for C4: on an empty store, a concrete signup succeeds and
persists the encrypted empty snapshot; the hypotheses (no existing blob,
hash different from `"users"`) are discharged concretely. -/
theorem claim_C4_witness :
    (signup (fun _ => "abcd") (fun _ => "data") (fun d pw => d ++ "#" ++ pw)
        (fun _ => "encodedUsers") (fun _ => []) "t0" "pw" []).ok = true :=
  ((claim_C4_signup (fun _ => "abcd") (fun _ => "data") (fun d pw => d ++ "#" ++ pw)
      (fun _ => "encodedUsers") (fun _ => []) "t0" "pw" []).2 rfl (by decide)).1
